import Mathlib

/-!
Verification development for a calendar-meeting management API
(Express/Mongoose, three server variants).

Shallow embedding conventions:
- Times (JS `Date` values, compared with `<`/`<=` which coerce to epoch
  milliseconds) are modelled as `Int` timestamps.
- Mongo `_id` values are modelled as `Nat`.
- The meeting collection is modelled as a `List Meeting` in storage order;
  `Meeting.find(query)` is `List.filter`, `findById` is `List.find?`,
  `doc.save()` replaces the document with the matching id.
- Handlers additionally report how many conflict queries and store writes
  they performed, so that "no store write / no conflict check" claims are
  statable.
- Date *parsing* is abstracted: request times arrive as `Option Int`
  (`none` = field absent or falsy). String formatting of dates inside
  human-readable messages uses the numeric timestamp.
-/

/-- Meeting status enum from the fuller Mongoose schema
(`['scheduled', 'cancelled', 'completed']`, default `scheduled`).
The minimal schema variant has no status field; meetings it creates
carry the default `scheduled`. -/
inductive MeetingStatus where
  | scheduled
  | cancelled
  | completed
deriving DecidableEq, Repr

/-- Unified meeting record covering both Mongoose schema variants.
The minimal variant has only title/description/startTime/endTime/hasConflict;
its optional fields are `none`/`[]`/default here. -/
structure Meeting where
  id : Nat
  title : String
  description : Option String
  startTime : Int
  endTime : Int
  organizer : Option String
  attendees : List String
  location : Option String
  status : MeetingStatus
  hasConflict : Bool
  conflictDetails : Option String
deriving DecidableEq, Repr

/-- The interval query used by every `checkTimeConflict` variant:
for candidate `(start, end)` a stored meeting matches when
`startTime: { $lt: endTime }, endTime: { $gt: startTime }`. -/
def overlap (cand existing : Int × Int) : Bool :=
  existing.1 < cand.2 && existing.2 > cand.1

/-- `query._id = { $ne: excludeMeetingId }` when an exclude id is supplied;
no restriction otherwise. -/
def notExcluded (excludeMeetingId : Option Nat) (m : Meeting) : Bool :=
  match excludeMeetingId with
  | some i => m.id != i
  | none => true

/-- `checkTimeConflict` of the session-enabled server variant: filters the
stored meetings by the strict-overlap interval query plus the optional
id exclusion. No status restriction (its schema has no status field),
and no validation of the candidate interval. -/
def checkTimeConflict (startTime endTime : Int) (excludeMeetingId : Option Nat)
    (store : List Meeting) : List Meeting :=
  store.filter (fun m =>
    overlap (startTime, endTime) (m.startTime, m.endTime) && notExcluded excludeMeetingId m)

/-- `checkTimeConflict` of the other two server variants: identical interval
query and id exclusion, but with the extra query field `status: 'scheduled'`. -/
def checkTimeConflictScheduled (startTime endTime : Int) (excludeMeetingId : Option Nat)
    (store : List Meeting) : List Meeting :=
  store.filter (fun m =>
    m.status == .scheduled &&
      (overlap (startTime, endTime) (m.startTime, m.endTime) && notExcluded excludeMeetingId m))

theorem notExcluded_eq_true_iff (ex : Option Nat) (m : Meeting) :
    notExcluded ex m = true ↔ ∀ i, ex = some i → m.id ≠ i := by
  cases ex with
  | none => simp [notExcluded]
  | some i => simp [notExcluded]

theorem mem_checkTimeConflict {m : Meeting} {s e : Int} {ex : Option Nat}
    {store : List Meeting} :
    m ∈ checkTimeConflict s e ex store ↔
      m ∈ store ∧ m.startTime < e ∧ m.endTime > s ∧ (∀ i, ex = some i → m.id ≠ i) := by
  rw [checkTimeConflict, List.mem_filter, Bool.and_eq_true, ← notExcluded_eq_true_iff]
  simp [overlap, and_assoc]

theorem mem_checkTimeConflictScheduled {m : Meeting} {s e : Int} {ex : Option Nat}
    {store : List Meeting} :
    m ∈ checkTimeConflictScheduled s e ex store ↔
      m ∈ store ∧ m.status = .scheduled ∧ m.startTime < e ∧ m.endTime > s ∧
        (∀ i, ex = some i → m.id ≠ i) := by
  rw [checkTimeConflictScheduled, List.mem_filter]
  simp only [Bool.and_eq_true, ← notExcluded_eq_true_iff, beq_iff_eq]
  simp [overlap, and_assoc]

theorem checkTimeConflict_sublist (s e : Int) (ex : Option Nat) (store : List Meeting) :
    (checkTimeConflict s e ex store).Sublist store :=
  List.filter_sublist store

theorem checkTimeConflictScheduled_sublist (s e : Int) (ex : Option Nat)
    (store : List Meeting) :
    (checkTimeConflictScheduled s e ex store).Sublist store :=
  List.filter_sublist store

/-!
## Handler models

Each handler returns, alongside its result and the post-state of the
meeting collection, a count of conflict-detector invocations and of
store writes, so that frame/validation claims can be stated.
-/

/-- Result/post-store/instrumentation bundle returned by every handler model. -/
structure HandlerOut (α : Type) where
  result : α
  store : List Meeting
  conflictChecks : Nat
  writes : Nat
deriving DecidableEq, Repr

/-- The `{id, title, startTime, endTime}` projection used for conflict lists
in agent and REST responses. -/
structure ConflictInfo where
  id : Nat
  title : String
  startTime : Int
  endTime : Int
deriving DecidableEq, Repr

def conflictInfoOf (m : Meeting) : ConflictInfo :=
  ⟨m.id, m.title, m.startTime, m.endTime⟩

/-- The proposed-meeting payload echoed back in a confirmation result. -/
structure ProposedMeeting where
  title : String
  description : Option String
  startTime : Int
  endTime : Int
deriving DecidableEq, Repr

/-- Arguments of the `create_meeting` tool in the session-enabled agent
(title, optional description, times, optional `forceCreate`; an absent
flag behaves as `false`). -/
structure AgentCreateArgs where
  title : String
  description : Option String
  startTime : Int
  endTime : Int
  forceCreate : Bool
deriving DecidableEq, Repr

inductive AgentCreateResult where
  | validationError (msg : String)
  | requiresConfirmation (message : String) (conflicts : List ConflictInfo)
      (proposed : ProposedMeeting)
  | created (meeting : Meeting) (hasConflict : Bool) (conflicts : List ConflictInfo)
deriving DecidableEq, Repr

/-- `create_meeting` case of the session-enabled agent endpoint:
reject `end <= start` before any store access; run the conflict check;
on conflict without `forceCreate` return a `requiresConfirmation` result
without creating; otherwise create the meeting with `hasConflict` set. -/
def agentCreateMeeting (args : AgentCreateArgs) (store : List Meeting) (newId : Nat) :
    HandlerOut AgentCreateResult :=
  if args.endTime ≤ args.startTime then
    ⟨.validationError "endTime must be after startTime", store, 0, 0⟩
  else
    let conflicts := checkTimeConflict args.startTime args.endTime none store
    let hasConflict : Bool := decide (conflicts.length > 0)
    if hasConflict && !args.forceCreate then
      ⟨.requiresConfirmation
        "Time conflict detected. Please choose a different time or confirm to create anyway."
        (conflicts.map conflictInfoOf)
        ⟨args.title, args.description, args.startTime, args.endTime⟩,
        store, 1, 0⟩
    else
      let m : Meeting :=
        { id := newId, title := args.title, description := args.description,
          startTime := args.startTime, endTime := args.endTime,
          organizer := none, attendees := [], location := none,
          status := .scheduled, hasConflict := hasConflict, conflictDetails := none }
      ⟨.created m hasConflict
        (if hasConflict then conflicts.map conflictInfoOf else []),
        store ++ [m], 1, 1⟩

/-- Arguments of the `create_meeting` tool in the session-less agent variant
(organizer required, optional attendees/location; no force flag exists). -/
structure AgentCreateArgsV1 where
  title : String
  description : Option String
  startTime : Int
  endTime : Int
  organizer : String
  attendees : Option (List String)
  location : Option String
deriving DecidableEq, Repr

/-- `Conflicts with N meeting(s): t1, t2` summary stored on creation by the
session-less agent variant. -/
def conflictDetailsV1 (conflicts : List Meeting) : String :=
  "Conflicts with " ++ toString conflicts.length ++ " meeting(s): " ++
    String.intercalate ", " (conflicts.map (fun m => m.title))

/-- `create_meeting` case of the session-less agent variant: reject
`end <= start`, run the status-filtered conflict check, then create the
meeting unconditionally (no confirmation gate), flagging `hasConflict`
and storing `conflictDetails` when conflicts exist. -/
def agentCreateMeetingV1 (args : AgentCreateArgsV1) (store : List Meeting) (newId : Nat) :
    HandlerOut AgentCreateResult :=
  if args.endTime ≤ args.startTime then
    ⟨.validationError "endTime must be after startTime", store, 0, 0⟩
  else
    let conflicts := checkTimeConflictScheduled args.startTime args.endTime none store
    let hasConflict : Bool := decide (conflicts.length > 0)
    let m : Meeting :=
      { id := newId, title := args.title, description := args.description,
        startTime := args.startTime, endTime := args.endTime,
        organizer := some args.organizer, attendees := args.attendees.getD [],
        location := args.location, status := .scheduled,
        hasConflict := hasConflict,
        conflictDetails := if hasConflict then some (conflictDetailsV1 conflicts) else none }
    ⟨.created m hasConflict
      (if hasConflict then conflicts.map conflictInfoOf else []),
      store ++ [m], 1, 1⟩

/-- Request body of the plain REST create endpoint (fuller variant):
`title`/`organizer` are required truthy strings (`""` models a missing or
falsy field), times are required. -/
structure RestCreateReq where
  title : String
  description : Option String
  startTime : Option Int
  endTime : Option Int
  organizer : String
  attendees : Option (List String)
  location : Option String
deriving DecidableEq, Repr

inductive RestCreateResult where
  | badRequest (msg : String)
  | created (meeting : Meeting) (conflicts : List ConflictInfo)
deriving DecidableEq, Repr

/-- `This meeting conflicts with N existing meeting(s): "t" (start - end), ...`
summary built by the fuller REST create endpoint (date formatting abstracted
to the numeric timestamps). -/
def restCreateConflictDetails (conflicts : List Meeting) : String :=
  "This meeting conflicts with " ++ toString conflicts.length ++
    " existing meeting(s): " ++
    String.intercalate ", " (conflicts.map (fun m =>
      "\"" ++ m.title ++ "\" (" ++ toString m.startTime ++ " - " ++
        toString m.endTime ++ ")"))

/-- `POST /api/meetings` of the fuller variants: validate required fields,
then `end <= start`; run the status-filtered conflict check; create the
meeting regardless of conflict, flagging `hasConflict`/`conflictDetails`,
and answer 201 with the conflict list. The first component of the result
pair is the HTTP status code. -/
def restCreateMeeting (req : RestCreateReq) (store : List Meeting) (newId : Nat) :
    HandlerOut (Nat × RestCreateResult) :=
  if req.title = "" || req.startTime.isNone || req.endTime.isNone || req.organizer = "" then
    ⟨(400, .badRequest "Missing required fields"), store, 0, 0⟩
  else
    let start := req.startTime.getD 0
    let stop := req.endTime.getD 0
    if stop ≤ start then
      ⟨(400, .badRequest "endTime must be after startTime"), store, 0, 0⟩
    else
      let conflicts := checkTimeConflictScheduled start stop none store
      let hasConflict : Bool := decide (conflicts.length > 0)
      let m : Meeting :=
        { id := newId, title := req.title, description := req.description,
          startTime := start, endTime := stop,
          organizer := some req.organizer, attendees := req.attendees.getD [],
          location := req.location, status := .scheduled,
          hasConflict := hasConflict,
          conflictDetails := if hasConflict then some (restCreateConflictDetails conflicts) else none }
      ⟨(201, .created m (if hasConflict then conflicts.map conflictInfoOf else [])),
        store ++ [m], 1, 1⟩

/-- Request body of the minimal-variant REST create endpoint
(no organizer/attendees/location). -/
structure RestCreateReqMin where
  title : String
  description : Option String
  startTime : Option Int
  endTime : Option Int
deriving DecidableEq, Repr

/-- `POST /api/meetings` of the session-enabled (minimal-schema) variant:
same flow but with the unfiltered conflict check and no `conflictDetails`. -/
def restCreateMeetingMin (req : RestCreateReqMin) (store : List Meeting) (newId : Nat) :
    HandlerOut (Nat × RestCreateResult) :=
  if req.title = "" || req.startTime.isNone || req.endTime.isNone then
    ⟨(400, .badRequest "Missing required fields"), store, 0, 0⟩
  else
    let start := req.startTime.getD 0
    let stop := req.endTime.getD 0
    if stop ≤ start then
      ⟨(400, .badRequest "endTime must be after startTime"), store, 0, 0⟩
    else
      let conflicts := checkTimeConflict start stop none store
      let hasConflict : Bool := decide (conflicts.length > 0)
      let m : Meeting :=
        { id := newId, title := req.title, description := req.description,
          startTime := start, endTime := stop,
          organizer := none, attendees := [], location := none,
          status := .scheduled, hasConflict := hasConflict, conflictDetails := none }
      ⟨(201, .created m (if hasConflict then conflicts.map conflictInfoOf else [])),
        store ++ [m], 1, 1⟩

/-- Request body of the fuller `PUT /api/meetings/:id`. `some ""` for
`title`/`organizer`/`status` models a supplied-but-falsy value, which the
handler ignores (JS truthiness); `description`/`location` are applied
whenever present (`!== undefined`); `attendees` whenever present. -/
structure RestUpdateReq where
  title : Option String
  description : Option String
  startTime : Option Int
  endTime : Option Int
  organizer : Option String
  attendees : Option (List String)
  location : Option String
  status : Option MeetingStatus
deriving DecidableEq, Repr

inductive RestUpdateResult where
  | notFound
  | badRequest (msg : String)
  | ok (meeting : Meeting)
deriving DecidableEq, Repr

/-- `This meeting conflicts with N existing meeting(s): "t1", "t2"` summary
recomputed by the fuller update paths. -/
def restUpdateConflictDetails (conflicts : List Meeting) : String :=
  "This meeting conflicts with " ++ toString conflicts.length ++
    " existing meeting(s): " ++
    String.intercalate ", " (conflicts.map (fun m => "\"" ++ m.title ++ "\""))

/-- `if (title) meeting.title = title;` — a truthy (non-empty) supplied
title replaces the stored one. -/
def applyTitleField (t : Option String) (meeting : Meeting) : Meeting :=
  match t with
  | some s => if s != "" then { meeting with title := s } else meeting
  | none => meeting

/-- `if (description !== undefined) meeting.description = description;` —
any supplied description (empty string included) replaces the stored one. -/
def applyDescriptionField (d : Option String) (meeting : Meeting) : Meeting :=
  match d with
  | some s => { meeting with description := some s }
  | none => meeting

/-- `if (organizer) meeting.organizer = organizer;` -/
def applyOrganizerField (o : Option String) (meeting : Meeting) : Meeting :=
  match o with
  | some s => if s != "" then { meeting with organizer := some s } else meeting
  | none => meeting

/-- `if (attendees) meeting.attendees = attendees;` — any supplied array
(empty included; arrays are truthy) replaces the stored one. -/
def applyAttendeesField (a : Option (List String)) (meeting : Meeting) : Meeting :=
  match a with
  | some xs => { meeting with attendees := xs }
  | none => meeting

/-- `if (location !== undefined) meeting.location = location;` -/
def applyLocationField (l : Option String) (meeting : Meeting) : Meeting :=
  match l with
  | some s => { meeting with location := some s }
  | none => meeting

/-- `if (status) meeting.status = status;` — a supplied enum value is a
truthy non-empty string. -/
def applyStatusField (st : Option MeetingStatus) (meeting : Meeting) : Meeting :=
  match st with
  | some s => { meeting with status := s }
  | none => meeting

/-- The non-time field assignments of the fuller update handler, in source
order. -/
def applyNonTimeFields (req : RestUpdateReq) (meeting : Meeting) : Meeting :=
  applyStatusField req.status
    (applyLocationField req.location
      (applyAttendeesField req.attendees
        (applyOrganizerField req.organizer
          (applyDescriptionField req.description
            (applyTitleField req.title meeting)))))

/-- `PUT /api/meetings/:id` of the fuller variants: look up the meeting,
apply non-time fields; when a time field is supplied, merge with the stored
times, reject `end <= start` before the conflict check and before saving,
otherwise re-run the status-filtered conflict check excluding the meeting's
own id and recompute `hasConflict`/`conflictDetails`; finally save. -/
def restUpdateMeeting (req : RestUpdateReq) (mid : Nat) (store : List Meeting) :
    HandlerOut (Nat × RestUpdateResult) :=
  match store.find? (fun m => m.id == mid) with
  | none => ⟨(404, .notFound), store, 0, 0⟩
  | some found =>
    let meeting := applyNonTimeFields req found
    if req.startTime.isSome || req.endTime.isSome then
      let newStart := req.startTime.getD meeting.startTime
      let newEnd := req.endTime.getD meeting.endTime
      if newEnd ≤ newStart then
        ⟨(400, .badRequest "endTime must be after startTime"), store, 0, 0⟩
      else
        let conflicts := checkTimeConflictScheduled newStart newEnd (some mid) store
        let hasConflict : Bool := decide (conflicts.length > 0)
        let updated : Meeting :=
          { meeting with
            startTime := newStart,
            endTime := newEnd,
            hasConflict := hasConflict,
            conflictDetails :=
              if hasConflict then some (restUpdateConflictDetails conflicts) else none }
        ⟨(200, .ok updated),
          store.map (fun x => if x.id == mid then updated else x), 1, 1⟩
    else
      ⟨(200, .ok meeting),
        store.map (fun x => if x.id == mid then meeting else x), 0, 1⟩

/-- Arguments of the `update_meeting` tool in the session-enabled agent
(title, description, times only). -/
structure AgentUpdateArgs where
  meetingId : Nat
  title : Option String
  description : Option String
  startTime : Option Int
  endTime : Option Int
deriving DecidableEq, Repr

inductive AgentUpdateResult where
  | notFound
  | validationError (msg : String)
  | ok (meeting : Meeting)
deriving DecidableEq, Repr

/-- `update_meeting` case of the session-enabled agent endpoint: look up the
meeting, apply truthy `title` and present `description`; when a time field is
supplied, merge, reject `end <= start` before the conflict check and before
saving, otherwise re-run the (unfiltered) conflict check excluding the
meeting's own id and recompute `hasConflict`; finally save. -/
def agentUpdateMeeting (args : AgentUpdateArgs) (store : List Meeting) :
    HandlerOut AgentUpdateResult :=
  match store.find? (fun m => m.id == args.meetingId) with
  | none => ⟨.notFound, store, 0, 0⟩
  | some found =>
    let meeting := applyDescriptionField args.description (applyTitleField args.title found)
    if args.startTime.isSome || args.endTime.isSome then
      let newStart := args.startTime.getD meeting.startTime
      let newEnd := args.endTime.getD meeting.endTime
      if newEnd ≤ newStart then
        ⟨.validationError "endTime must be after startTime", store, 0, 0⟩
      else
        let conflicts := checkTimeConflict newStart newEnd (some args.meetingId) store
        let updated : Meeting :=
          { meeting with
            startTime := newStart,
            endTime := newEnd,
            hasConflict := decide (conflicts.length > 0) }
        ⟨.ok updated,
          store.map (fun x => if x.id == args.meetingId then updated else x), 1, 1⟩
    else
      ⟨.ok meeting,
        store.map (fun x => if x.id == args.meetingId then meeting else x), 0, 1⟩

/-!
## Conversation session store (session-enabled variant)

The process-wide `conversationHistories` map is modelled as a total
function from session id to history; an absent session is the empty
history (matching `getConversationHistory`, which lazily creates `[]`).
-/

inductive ChatRole where
  | user
  | assistant
  | tool
deriving DecidableEq, Repr

/-- One entry of a session history: role, optional text content, whether it
carries tool calls, and an optional tool-call id (for `role: 'tool'`). -/
structure HistEntry where
  role : ChatRole
  content : Option String
  hasToolCalls : Bool
  toolCallId : Option Nat
deriving DecidableEq, Repr

/-- The assistant message as relevant to history recording: its content and
whether it carries `tool_calls`. -/
structure AssistantMsg where
  content : Option String
  hasToolCalls : Bool
deriving DecidableEq, Repr

def SessionMap : Type := String → List HistEntry

/-- The empty map: every session id has an empty history. -/
def emptySessions : SessionMap := fun _ => []

def setSession (m : SessionMap) (sid : String) (h : List HistEntry) : SessionMap :=
  fun s => if s = sid then h else m s

/-- The entries one `addToHistory` call pushes: always the user turn; then
either (assistant-with-tool-calls, optional tool result) when a tool call is
present on both sides, or a plain assistant turn. The tool result content is
abstracted to its serialized text. -/
def historyEntries (userMessage : String) (assistant : AssistantMsg)
    (toolCall : Option Nat) (toolResult : Option String) : List HistEntry :=
  let userEntry : HistEntry := ⟨.user, some userMessage, false, none⟩
  if toolCall.isSome && assistant.hasToolCalls then
    let assistantEntry : HistEntry := ⟨.assistant, assistant.content, true, none⟩
    match toolResult with
    | some r => [userEntry, assistantEntry, ⟨.tool, some r, false, toolCall⟩]
    | none => [userEntry, assistantEntry]
  else
    [userEntry, ⟨.assistant, assistant.content, false, none⟩]

/-- `addToHistory`: append the new entries to the session's history, then if
the result exceeds 9 entries keep only the last 9 (`history.slice(-9)`). -/
def addToHistory (m : SessionMap) (sid : String) (userMessage : String)
    (assistant : AssistantMsg) (toolCall : Option Nat) (toolResult : Option String) :
    SessionMap :=
  let h := m sid ++ historyEntries userMessage assistant toolCall toolResult
  setSession m sid (if h.length > 9 then h.drop (h.length - 9) else h)

/-- `POST /api/agent/clear-history`: `conversationHistories.delete(sessionId)`;
a deleted session reads back as the empty history. -/
def clearHistory (m : SessionMap) (sid : String) : SessionMap :=
  setSession m sid []

/-!
## Frame lemmas for the non-time field assignments
-/

theorem applyTitleField_frame (t : Option String) (m : Meeting) :
    (applyTitleField t m).id = m.id ∧
    (applyTitleField t m).startTime = m.startTime ∧
    (applyTitleField t m).endTime = m.endTime ∧
    (applyTitleField t m).hasConflict = m.hasConflict ∧
    (applyTitleField t m).conflictDetails = m.conflictDetails := by
  cases t with
  | none => simp [applyTitleField]
  | some s =>
    by_cases h : s = "" <;> simp [applyTitleField, h]

theorem applyDescriptionField_frame (d : Option String) (m : Meeting) :
    (applyDescriptionField d m).id = m.id ∧
    (applyDescriptionField d m).startTime = m.startTime ∧
    (applyDescriptionField d m).endTime = m.endTime ∧
    (applyDescriptionField d m).hasConflict = m.hasConflict ∧
    (applyDescriptionField d m).conflictDetails = m.conflictDetails := by
  cases d <;> simp [applyDescriptionField]

theorem applyOrganizerField_frame (o : Option String) (m : Meeting) :
    (applyOrganizerField o m).id = m.id ∧
    (applyOrganizerField o m).startTime = m.startTime ∧
    (applyOrganizerField o m).endTime = m.endTime ∧
    (applyOrganizerField o m).hasConflict = m.hasConflict ∧
    (applyOrganizerField o m).conflictDetails = m.conflictDetails := by
  cases o with
  | none => simp [applyOrganizerField]
  | some s =>
    by_cases h : s = "" <;> simp [applyOrganizerField, h]

theorem applyAttendeesField_frame (a : Option (List String)) (m : Meeting) :
    (applyAttendeesField a m).id = m.id ∧
    (applyAttendeesField a m).startTime = m.startTime ∧
    (applyAttendeesField a m).endTime = m.endTime ∧
    (applyAttendeesField a m).hasConflict = m.hasConflict ∧
    (applyAttendeesField a m).conflictDetails = m.conflictDetails := by
  cases a <;> simp [applyAttendeesField]

theorem applyLocationField_frame (l : Option String) (m : Meeting) :
    (applyLocationField l m).id = m.id ∧
    (applyLocationField l m).startTime = m.startTime ∧
    (applyLocationField l m).endTime = m.endTime ∧
    (applyLocationField l m).hasConflict = m.hasConflict ∧
    (applyLocationField l m).conflictDetails = m.conflictDetails := by
  cases l <;> simp [applyLocationField]

theorem applyStatusField_frame (st : Option MeetingStatus) (m : Meeting) :
    (applyStatusField st m).id = m.id ∧
    (applyStatusField st m).startTime = m.startTime ∧
    (applyStatusField st m).endTime = m.endTime ∧
    (applyStatusField st m).hasConflict = m.hasConflict ∧
    (applyStatusField st m).conflictDetails = m.conflictDetails := by
  cases st <;> simp [applyStatusField]

/-- The non-time assignments never touch id, the times, or the conflict
state. -/
theorem applyNonTimeFields_frame (req : RestUpdateReq) (m : Meeting) :
    (applyNonTimeFields req m).id = m.id ∧
    (applyNonTimeFields req m).startTime = m.startTime ∧
    (applyNonTimeFields req m).endTime = m.endTime ∧
    (applyNonTimeFields req m).hasConflict = m.hasConflict ∧
    (applyNonTimeFields req m).conflictDetails = m.conflictDetails := by
  unfold applyNonTimeFields
  obtain ⟨h1, h2, h3, h4, h5⟩ := applyTitleField_frame req.title m
  obtain ⟨g1, g2, g3, g4, g5⟩ :=
    applyDescriptionField_frame req.description (applyTitleField req.title m)
  obtain ⟨f1, f2, f3, f4, f5⟩ := applyOrganizerField_frame req.organizer
    (applyDescriptionField req.description (applyTitleField req.title m))
  obtain ⟨e1, e2, e3, e4, e5⟩ := applyAttendeesField_frame req.attendees
    (applyOrganizerField req.organizer
      (applyDescriptionField req.description (applyTitleField req.title m)))
  obtain ⟨d1, d2, d3, d4, d5⟩ := applyLocationField_frame req.location
    (applyAttendeesField req.attendees
      (applyOrganizerField req.organizer
        (applyDescriptionField req.description (applyTitleField req.title m))))
  obtain ⟨c1, c2, c3, c4, c5⟩ := applyStatusField_frame req.status
    (applyLocationField req.location
      (applyAttendeesField req.attendees
        (applyOrganizerField req.organizer
          (applyDescriptionField req.description (applyTitleField req.title m)))))
  exact ⟨c1.trans (d1.trans (e1.trans (f1.trans (g1.trans h1)))),
    c2.trans (d2.trans (e2.trans (f2.trans (g2.trans h2)))),
    c3.trans (d3.trans (e3.trans (f3.trans (g3.trans h3)))),
    c4.trans (d4.trans (e4.trans (f4.trans (g4.trans h4)))),
    c5.trans (d5.trans (e5.trans (f5.trans (g5.trans h5))))⟩

/-!
## Sample data for witnesses and counterexamples
-/

/-- A scheduled meeting on [0, 10). -/
def mtgA : Meeting :=
  ⟨1, "standup", none, 0, 10, some "john@example.com", [], none, .scheduled, false, none⟩

/-- A scheduled meeting on [-10, 0), touching `mtgA` at 0. -/
def mtgTouch : Meeting :=
  ⟨2, "earlier", none, -10, 0, some "john@example.com", [], none, .scheduled, false, none⟩

/-- A *cancelled* meeting on [0, 10). -/
def mtgCancelled : Meeting :=
  ⟨3, "cancelled sync", none, 0, 10, some "john@example.com", [], none, .cancelled, false,
    none⟩

/-!
## Claim theorems
-/

/-- C9: the overlap predicate used by `checkTimeConflict` is symmetric
(`overlap(A,B) == overlap(B,A)` for all intervals) and reflexive on valid
intervals (`overlap(A,A) == true` whenever `e1 > s1`). -/
theorem overlap_symm_and_refl :
    (∀ a b : Int × Int, overlap a b = overlap b a) ∧
    (∀ s e : Int, e > s → overlap (s, e) (s, e) = true) := by
  constructor
  · intro a b
    simp only [overlap]
    rw [Bool.and_comm]
  · intro s e h
    simp only [overlap]
    simp [h]

/-- Witness for C9 at concrete intervals. -/
theorem overlap_symm_and_refl_witness :
    overlap (3, 7) (5, 9) = overlap (5, 9) (3, 7) ∧ overlap (2, 4) (2, 4) = true :=
  ⟨overlap_symm_and_refl.1 (3, 7) (5, 9), overlap_symm_and_refl.2 2 4 (by decide)⟩

/-- C1 (amended): for a candidate interval with `end > start`, the
unfiltered detector returns exactly the stored meetings satisfying the
strict-overlap predicate (and, when an exclude id is supplied, whose id
differs from it); the status-filtered detector variant returns exactly the
stored *scheduled* such meetings. Both return sublists of the store
(storage order), and a meeting that merely touches the candidate is never
returned by either. -/
theorem checkTimeConflict_exact (s e : Int) (ex : Option Nat) (store : List Meeting)
    (hvalid : e > s) :
    (∀ m : Meeting, m ∈ checkTimeConflict s e ex store ↔
        m ∈ store ∧ m.startTime < e ∧ m.endTime > s ∧ ∀ i, ex = some i → m.id ≠ i) ∧
    (∀ m : Meeting, m ∈ checkTimeConflictScheduled s e ex store ↔
        m ∈ store ∧ m.status = .scheduled ∧ m.startTime < e ∧ m.endTime > s ∧
          ∀ i, ex = some i → m.id ≠ i) ∧
    (checkTimeConflict s e ex store).Sublist store ∧
    (checkTimeConflictScheduled s e ex store).Sublist store ∧
    (∀ m : Meeting, m.endTime = s ∨ m.startTime = e →
      m ∉ checkTimeConflict s e ex store ∧ m ∉ checkTimeConflictScheduled s e ex store) := by
  refine ⟨fun m => mem_checkTimeConflict, fun m => mem_checkTimeConflictScheduled,
    checkTimeConflict_sublist s e ex store, checkTimeConflictScheduled_sublist s e ex store,
    ?_⟩
  intro m htouch
  constructor
  · intro hmem
    obtain ⟨-, h1, h2, -⟩ := mem_checkTimeConflict.mp hmem
    omega
  · intro hmem
    obtain ⟨-, -, h1, h2, -⟩ := mem_checkTimeConflictScheduled.mp hmem
    omega

/-- Witness for C1 at a concrete store: the [0,10) meeting overlaps the
candidate (5,15) and is returned, while the meeting touching the candidate
at its start is not. -/
theorem checkTimeConflict_exact_witness :
    mtgA ∈ checkTimeConflict 0 10 none [mtgA, mtgTouch] ∧
    mtgTouch ∉ checkTimeConflict 0 10 none [mtgA, mtgTouch] := by
  have h := checkTimeConflict_exact 0 10 none [mtgA, mtgTouch] (by decide)
  refine ⟨(h.1 mtgA).mpr ⟨by decide, by decide, by decide, by intro i hi; cases hi⟩, ?_⟩
  exact (h.2.2.2.2 mtgTouch (by decide)).1

/-- C1 counterexample to the claim as stated: the status-filtered detector
variant does **not** return every stored meeting satisfying the
strict-overlap predicate — a cancelled meeting on [0,10) overlaps the valid
candidate (0,10) and carries no excluded id, yet the result set is empty. -/
theorem checkTimeConflictScheduled_skips_cancelled_counterexample :
    (10 : Int) > 0 ∧
    mtgCancelled ∈ [mtgCancelled] ∧
    mtgCancelled.startTime < 10 ∧ mtgCancelled.endTime > 0 ∧
    checkTimeConflictScheduled 0 10 none [mtgCancelled] = [] := by
  decide

/-- C7 (amended): the conflict detector performs **no** interval validation.
Invoked with an invalid interval (`end <= start`) it does not fail — there is
no `InvalidInterval` error path — but simply returns the result set of the
same query: exactly the stored meetings with `startTime < end` and
`endTime > start` (respecting the optional id exclusion), in both
detector variants. -/
theorem checkTimeConflict_degenerate (s e : Int) (ex : Option Nat) (store : List Meeting)
    (hinv : e ≤ s) :
    (∀ m : Meeting, m ∈ checkTimeConflict s e ex store ↔
        m ∈ store ∧ m.startTime < e ∧ m.endTime > s ∧ ∀ i, ex = some i → m.id ≠ i) ∧
    (∀ m : Meeting, m ∈ checkTimeConflictScheduled s e ex store ↔
        m ∈ store ∧ m.status = .scheduled ∧ m.startTime < e ∧ m.endTime > s ∧
          ∀ i, ex = some i → m.id ≠ i) :=
  ⟨fun m => mem_checkTimeConflict, fun m => mem_checkTimeConflictScheduled⟩

/-- A scheduled meeting on [-10, 20), strictly containing the degenerate
candidate point 5. -/
def mtgWide : Meeting :=
  ⟨4, "all-day block", none, -10, 20, some "john@example.com", [], none, .scheduled, false,
    none⟩

/-- Witness for C7: at the degenerate candidate (5,5) the wide meeting still
satisfies the query and is a member of the returned result set. -/
theorem checkTimeConflict_degenerate_witness :
    mtgWide ∈ checkTimeConflict 5 5 none [mtgWide] := by
  have h := checkTimeConflict_degenerate 5 5 none [mtgWide] (by decide)
  exact (h.1 mtgWide).mpr ⟨by decide, by decide, by decide, by intro i hi; cases hi⟩

/-- C7 counterexample to the claim as stated: with `end <= start` (here
`end = start = 5`) the detector does not fail with an `InvalidInterval`
error kind — it returns a nonempty result set. -/
theorem checkTimeConflict_no_invalid_interval_counterexample :
    (5 : Int) ≤ 5 ∧ checkTimeConflict 5 5 none [mtgWide] = [mtgWide] := by
  decide

/-- C4: an update-triggered conflict check excludes the meeting's own id —
no meeting carrying the excluded id is ever in either detector's result, for
any state of the store; consequently updating the only stored meeting's time
(keeping a valid span) reports no conflict, in both the agent update handler
and the REST update handler. -/
theorem update_excludes_own_id :
    (∀ (s e : Int) (i : Nat) (store : List Meeting),
      ∀ m ∈ checkTimeConflict s e (some i) store, m.id ≠ i) ∧
    (∀ (s e : Int) (i : Nat) (store : List Meeting),
      ∀ m ∈ checkTimeConflictScheduled s e (some i) store, m.id ≠ i) ∧
    (∀ (m1 : Meeting) (ns ne : Int), ne > ns →
      (agentUpdateMeeting ⟨m1.id, none, none, some ns, some ne⟩ [m1]).result =
        .ok { m1 with startTime := ns, endTime := ne, hasConflict := false } ∧
      (restUpdateMeeting ⟨none, none, some ns, some ne, none, none, none, none⟩
          m1.id [m1]).result =
        (200, .ok { m1 with
          startTime := ns, endTime := ne, hasConflict := false,
          conflictDetails := none })) := by
  refine ⟨?_, ?_, ?_⟩
  · intro s e i store m hm
    exact (mem_checkTimeConflict.mp hm).2.2.2 i rfl
  · intro s e i store m hm
    exact (mem_checkTimeConflictScheduled.mp hm).2.2.2.2 i rfl
  · intro m1 ns ne h
    have hchk : checkTimeConflict ns ne (some m1.id) [m1] = [] := by
      simp [checkTimeConflict, notExcluded]
    have hchkS : checkTimeConflictScheduled ns ne (some m1.id) [m1] = [] := by
      simp [checkTimeConflictScheduled, notExcluded]
    constructor
    · simp only [agentUpdateMeeting, List.find?, beq_self_eq_true, Option.isSome_some,
        Bool.or_self, if_true, Option.getD_some, applyTitleField, applyDescriptionField,
        hchk, List.length_nil]
      rw [if_neg (by omega)]
      simp [hchk]
    · simp only [restUpdateMeeting, List.find?, beq_self_eq_true, Option.isSome_some,
        Bool.or_self, if_true, Option.getD_some, applyNonTimeFields, applyTitleField,
        applyDescriptionField, applyOrganizerField, applyAttendeesField, applyLocationField,
        applyStatusField]
      rw [if_neg (by omega)]
      simp [hchkS]

/-- Witness for C4 at concrete inputs: moving `mtgA` within a store that
contains only `mtgA` reports no conflict on either path. -/
theorem update_excludes_own_id_witness :
    (agentUpdateMeeting ⟨mtgA.id, none, none, some 20, some 30⟩ [mtgA]).result =
      .ok { mtgA with startTime := 20, endTime := 30, hasConflict := false } ∧
    (restUpdateMeeting ⟨none, none, some 20, some 30, none, none, none, none⟩
        mtgA.id [mtgA]).result =
      (200, .ok { mtgA with
        startTime := 20, endTime := 30, hasConflict := false, conflictDetails := none }) :=
  update_excludes_own_id.2.2 mtgA 20 30 (by decide)

/-- C6: after **any** append — regardless of the session's prior state, hence
after every append of any sequence — the stored history of the appended
session has at most 9 entries, and what is kept is a suffix (the most recent
entries) of the old history followed by the new entries; an append leaves
every other session unchanged. Clearing a session empties exactly that
session's history and leaves every other session's history unchanged. -/
theorem session_history_bounded :
    (∀ (m : SessionMap) (sid userMessage : String) (assistant : AssistantMsg)
        (toolCall : Option Nat) (toolResult : Option String),
      ((addToHistory m sid userMessage assistant toolCall toolResult) sid).length ≤ 9 ∧
      List.IsSuffix ((addToHistory m sid userMessage assistant toolCall toolResult) sid)
        (m sid ++ historyEntries userMessage assistant toolCall toolResult) ∧
      ∀ s : String, s ≠ sid →
        (addToHistory m sid userMessage assistant toolCall toolResult) s = m s) ∧
    (∀ (m : SessionMap) (sid : String),
      (clearHistory m sid) sid = [] ∧
      ∀ s : String, s ≠ sid → (clearHistory m sid) s = m s) := by
  constructor
  · intro m sid userMessage assistant toolCall toolResult
    refine ⟨?_, ?_, ?_⟩
    · simp only [addToHistory, setSession]
      rw [if_true]
      split
      · rw [List.length_drop]
        omega
      · omega
    · simp only [addToHistory, setSession]
      rw [if_true]
      split
      · exact List.drop_suffix _ _
      · exact List.suffix_refl _
    · intro s hs
      simp only [addToHistory, setSession]
      rw [if_neg hs]
  · intro m sid
    refine ⟨?_, ?_⟩
    · simp only [clearHistory, setSession]
      rw [if_true]
    · intro s hs
      simp only [clearHistory, setSession]
      rw [if_neg hs]

/-- Witness for C6 at concrete inputs: one append to the empty map stays
within the bound, and clearing session "a" leaves session "b" untouched. -/
theorem session_history_bounded_witness :
    ((addToHistory emptySessions "a" "hi" ⟨some "hello", false⟩ none none) "a").length ≤ 9 ∧
    (clearHistory emptySessions "a") "a" = [] ∧
    (clearHistory emptySessions "a") "b" = emptySessions "b" :=
  ⟨(session_history_bounded.1 emptySessions "a" "hi" ⟨some "hello", false⟩ none none).1,
    (session_history_bounded.2 emptySessions "a").1,
    (session_history_bounded.2 emptySessions "a").2 "b" (by decide)⟩

/-- C2 (amended): in the **session-enabled** agent variant, a `create_meeting`
request over a valid interval that conflicts with at least one stored meeting
and has `forceCreate` unset performs zero store mutation and returns a
`requiresConfirmation` result carrying the conflicting meetings
(id, title, start, end) and the proposed meeting payload; the same request
with `forceCreate` set performs exactly one creation (the store grows by
exactly the one new meeting, one write). The session-less agent variant has
no such gate (see the counterexample): it creates immediately. -/
theorem agent_create_confirmation_gate :
    (∀ (args : AgentCreateArgs) (store : List Meeting) (newId : Nat),
      args.startTime < args.endTime →
      args.forceCreate = false →
      checkTimeConflict args.startTime args.endTime none store ≠ [] →
      (agentCreateMeeting args store newId).store = store ∧
      (agentCreateMeeting args store newId).writes = 0 ∧
      (agentCreateMeeting args store newId).result =
        .requiresConfirmation
          "Time conflict detected. Please choose a different time or confirm to create anyway."
          ((checkTimeConflict args.startTime args.endTime none store).map conflictInfoOf)
          ⟨args.title, args.description, args.startTime, args.endTime⟩) ∧
    (∀ (args : AgentCreateArgs) (store : List Meeting) (newId : Nat),
      args.startTime < args.endTime →
      args.forceCreate = true →
      ∃ m : Meeting,
        (agentCreateMeeting args store newId).store = store ++ [m] ∧
        (agentCreateMeeting args store newId).writes = 1 ∧
        m.title = args.title ∧ m.startTime = args.startTime ∧ m.endTime = args.endTime ∧
        m.hasConflict =
          decide ((checkTimeConflict args.startTime args.endTime none store).length > 0)) := by
  constructor
  · intro args store newId hlt hforce hconf
    have hlen : 0 < (checkTimeConflict args.startTime args.endTime none store).length :=
      List.length_pos.mpr hconf
    simp only [agentCreateMeeting]
    rw [if_neg (by omega)]
    rw [if_pos (by simp [hforce, hlen])]
    exact ⟨rfl, rfl, rfl⟩
  · intro args store newId hlt hforce
    simp only [agentCreateMeeting]
    rw [if_neg (by omega)]
    rw [if_neg (by simp [hforce])]
    exact ⟨_, rfl, rfl, rfl, rfl, rfl, rfl⟩

/-- Witness for C2: with `mtgA` on [0,10) stored and a proposed meeting on
[5,15), the unforced request mutates nothing and demands confirmation, and
the forced follow-up creates exactly one meeting. -/
theorem agent_create_confirmation_gate_witness :
    ((agentCreateMeeting ⟨"client call", none, 5, 15, false⟩ [mtgA] 2).store = [mtgA] ∧
      (agentCreateMeeting ⟨"client call", none, 5, 15, false⟩ [mtgA] 2).writes = 0 ∧
      (agentCreateMeeting ⟨"client call", none, 5, 15, false⟩ [mtgA] 2).result =
        .requiresConfirmation
          "Time conflict detected. Please choose a different time or confirm to create anyway."
          ((checkTimeConflict 5 15 none [mtgA]).map conflictInfoOf)
          ⟨"client call", none, 5, 15⟩) ∧
    ∃ m : Meeting,
      (agentCreateMeeting ⟨"client call", none, 5, 15, true⟩ [mtgA] 2).store = [mtgA] ++ [m] ∧
      (agentCreateMeeting ⟨"client call", none, 5, 15, true⟩ [mtgA] 2).writes = 1 ∧
      m.title = "client call" ∧ m.startTime = 5 ∧ m.endTime = 15 ∧
      m.hasConflict = decide ((checkTimeConflict 5 15 none [mtgA]).length > 0) :=
  ⟨agent_create_confirmation_gate.1 ⟨"client call", none, 5, 15, false⟩ [mtgA] 2
      (by decide) rfl (by decide),
    agent_create_confirmation_gate.2 ⟨"client call", none, 5, 15, true⟩ [mtgA] 2
      (by decide) rfl⟩

/-- C2 counterexample to the claim as stated: in the session-less agent
variant the `create_meeting` tool has no `forceCreate` parameter (so the flag
is never set) and no confirmation gate — a request on [5,15) conflicting with
the stored meeting on [0,10) is created anyway: the store grows to two
meetings, one write is performed, and the result is a `created` result with
`hasConflict = true`, not a confirmation request. -/
theorem agent_create_no_gate_counterexample :
    overlap (5, 15) (mtgA.startTime, mtgA.endTime) = true ∧
    (agentCreateMeetingV1 ⟨"client call", none, 5, 15, "john@example.com", none, none⟩
      [mtgA] 2).store.length = 2 ∧
    (agentCreateMeetingV1 ⟨"client call", none, 5, 15, "john@example.com", none, none⟩
      [mtgA] 2).writes = 1 ∧
    ∃ m : Meeting, ∃ cs : List ConflictInfo,
      (agentCreateMeetingV1 ⟨"client call", none, 5, 15, "john@example.com", none, none⟩
        [mtgA] 2).result = .created m true cs := by
  refine ⟨by decide, by decide, by decide, ?_⟩
  exact ⟨_, _, rfl⟩

/-- C3: every create or update path, given (effective) `endTime <= startTime`,
fails with the validation error `endTime must be after startTime` before any
store write and before any conflict check: the store is unchanged, zero
conflict-detector invocations, zero writes. Covers the agent create cases of
both agent variants, both REST create endpoints, and both update handlers
(where the effective times merge supplied fields with the stored ones). -/
theorem invalid_interval_fails_fast :
    (∀ (args : AgentCreateArgs) (store : List Meeting) (newId : Nat),
      args.endTime ≤ args.startTime →
      agentCreateMeeting args store newId =
        ⟨.validationError "endTime must be after startTime", store, 0, 0⟩) ∧
    (∀ (args : AgentCreateArgsV1) (store : List Meeting) (newId : Nat),
      args.endTime ≤ args.startTime →
      agentCreateMeetingV1 args store newId =
        ⟨.validationError "endTime must be after startTime", store, 0, 0⟩) ∧
    (∀ (req : RestCreateReq) (store : List Meeting) (newId : Nat) (s e : Int),
      req.title ≠ "" → req.organizer ≠ "" →
      req.startTime = some s → req.endTime = some e → e ≤ s →
      restCreateMeeting req store newId =
        ⟨(400, .badRequest "endTime must be after startTime"), store, 0, 0⟩) ∧
    (∀ (req : RestCreateReqMin) (store : List Meeting) (newId : Nat) (s e : Int),
      req.title ≠ "" →
      req.startTime = some s → req.endTime = some e → e ≤ s →
      restCreateMeetingMin req store newId =
        ⟨(400, .badRequest "endTime must be after startTime"), store, 0, 0⟩) ∧
    (∀ (req : RestUpdateReq) (mid : Nat) (store : List Meeting) (found : Meeting),
      store.find? (fun m => m.id == mid) = some found →
      (req.startTime.isSome ∨ req.endTime.isSome) →
      req.endTime.getD found.endTime ≤ req.startTime.getD found.startTime →
      restUpdateMeeting req mid store =
        ⟨(400, .badRequest "endTime must be after startTime"), store, 0, 0⟩) ∧
    (∀ (args : AgentUpdateArgs) (store : List Meeting) (found : Meeting),
      store.find? (fun m => m.id == args.meetingId) = some found →
      (args.startTime.isSome ∨ args.endTime.isSome) →
      args.endTime.getD found.endTime ≤ args.startTime.getD found.startTime →
      agentUpdateMeeting args store =
        ⟨.validationError "endTime must be after startTime", store, 0, 0⟩) := by
  refine ⟨?_, ?_, ?_, ?_, ?_, ?_⟩
  · intro args store newId h
    simp only [agentCreateMeeting]
    rw [if_pos h]
  · intro args store newId h
    simp only [agentCreateMeetingV1]
    rw [if_pos h]
  · intro req store newId s e htitle horg hs he hle
    simp only [restCreateMeeting]
    rw [if_neg (by simp [htitle, horg, hs, he])]
    rw [hs, he]
    simp only [Option.getD_some]
    rw [if_pos hle]
  · intro req store newId s e htitle hs he hle
    simp only [restCreateMeetingMin]
    rw [if_neg (by simp [htitle, hs, he])]
    rw [hs, he]
    simp only [Option.getD_some]
    rw [if_pos hle]
  · intro req mid store found hfind htime hle
    obtain ⟨-, hst, het, -, -⟩ := applyNonTimeFields_frame req found
    simp only [restUpdateMeeting, hfind]
    rw [if_pos (by rcases htime with h | h <;> simp [h])]
    rw [if_pos (by rw [hst, het]; exact hle)]
  · intro args store found hfind htime hle
    obtain ⟨-, hst, het, -, -⟩ :=
      applyDescriptionField_frame args.description (applyTitleField args.title found)
    obtain ⟨-, hst2, het2, -, -⟩ := applyTitleField_frame args.title found
    simp only [agentUpdateMeeting, hfind]
    rw [if_pos (by rcases htime with h | h <;> simp [h])]
    rw [if_pos (by rw [hst, het, hst2, het2]; exact hle)]

/-- Witness for C3 at concrete degenerate requests (end = start = 5)
against a store holding `mtgA`. -/
theorem invalid_interval_fails_fast_witness :
    agentCreateMeeting ⟨"x", none, 5, 5, false⟩ [mtgA] 2 =
      ⟨.validationError "endTime must be after startTime", [mtgA], 0, 0⟩ ∧
    agentCreateMeetingV1 ⟨"x", none, 5, 5, "o@x.com", none, none⟩ [mtgA] 2 =
      ⟨.validationError "endTime must be after startTime", [mtgA], 0, 0⟩ ∧
    restCreateMeeting ⟨"x", none, some 5, some 5, "o@x.com", none, none⟩ [mtgA] 2 =
      ⟨(400, .badRequest "endTime must be after startTime"), [mtgA], 0, 0⟩ ∧
    restCreateMeetingMin ⟨"x", none, some 5, some 5⟩ [mtgA] 2 =
      ⟨(400, .badRequest "endTime must be after startTime"), [mtgA], 0, 0⟩ ∧
    restUpdateMeeting ⟨none, none, some 5, some 5, none, none, none, none⟩ mtgA.id [mtgA] =
      ⟨(400, .badRequest "endTime must be after startTime"), [mtgA], 0, 0⟩ ∧
    agentUpdateMeeting ⟨mtgA.id, none, none, some 5, some 5⟩ [mtgA] =
      ⟨.validationError "endTime must be after startTime", [mtgA], 0, 0⟩ :=
  ⟨invalid_interval_fails_fast.1 ⟨"x", none, 5, 5, false⟩ [mtgA] 2 (by decide),
    invalid_interval_fails_fast.2.1 ⟨"x", none, 5, 5, "o@x.com", none, none⟩ [mtgA] 2
      (by decide),
    invalid_interval_fails_fast.2.2.1 ⟨"x", none, some 5, some 5, "o@x.com", none, none⟩
      [mtgA] 2 5 5 (by decide) (by decide) rfl rfl (by decide),
    invalid_interval_fails_fast.2.2.2.1 ⟨"x", none, some 5, some 5⟩ [mtgA] 2 5 5
      (by decide) rfl rfl (by decide),
    invalid_interval_fails_fast.2.2.2.2.1 ⟨none, none, some 5, some 5, none, none, none, none⟩
      mtgA.id [mtgA] mtgA (by decide) (Or.inl (by decide)) (by decide),
    invalid_interval_fails_fast.2.2.2.2.2 ⟨mtgA.id, none, none, some 5, some 5⟩ [mtgA] mtgA
      (by decide) (Or.inl (by decide)) (by decide)⟩

theorem ne_nil_iff_exists_mem {α : Type} {l : List α} : l ≠ [] ↔ ∃ x, x ∈ l := by
  cases l <;> simp

/-- C5 (amended): a time-changing update (found meeting, some time field supplied,
valid effective interval) succeeds and recomputes the conflict state from
the other stored meetings. In the fuller REST update handler: when some
*other* stored scheduled meeting overlaps the new interval, the updated
meeting has `hasConflict = true` and `conflictDetails` freshly recomputed
from the conflicting set; when none does, both are cleared (`false` / none).
In the session-enabled agent update handler (whose minimal schema has no
`conflictDetails`): `hasConflict` is likewise recomputed to exactly whether
some other stored meeting overlaps. -/
theorem update_recomputes_conflict_state :
    (∀ (req : RestUpdateReq) (mid : Nat) (store : List Meeting) (found : Meeting)
        (ns ne : Int),
      store.find? (fun m => m.id == mid) = some found →
      (req.startTime.isSome ∨ req.endTime.isSome) →
      ns = req.startTime.getD found.startTime →
      ne = req.endTime.getD found.endTime →
      ne > ns →
      ∃ updated : Meeting,
        (restUpdateMeeting req mid store).result = (200, .ok updated) ∧
        updated.startTime = ns ∧ updated.endTime = ne ∧
        ((∃ m2 ∈ store, m2.status = .scheduled ∧ m2.startTime < ne ∧ m2.endTime > ns ∧
            m2.id ≠ mid) →
          updated.hasConflict = true ∧
          updated.conflictDetails = some (restUpdateConflictDetails
            (checkTimeConflictScheduled ns ne (some mid) store))) ∧
        ((¬ ∃ m2 ∈ store, m2.status = .scheduled ∧ m2.startTime < ne ∧ m2.endTime > ns ∧
            m2.id ≠ mid) →
          updated.hasConflict = false ∧ updated.conflictDetails = none)) ∧
    (∀ (args : AgentUpdateArgs) (store : List Meeting) (found : Meeting) (ns ne : Int),
      store.find? (fun m => m.id == args.meetingId) = some found →
      (args.startTime.isSome ∨ args.endTime.isSome) →
      ns = args.startTime.getD found.startTime →
      ne = args.endTime.getD found.endTime →
      ne > ns →
      ∃ updated : Meeting,
        (agentUpdateMeeting args store).result = .ok updated ∧
        updated.startTime = ns ∧ updated.endTime = ne ∧
        (updated.hasConflict = true ↔
          ∃ m2 ∈ store, m2.startTime < ne ∧ m2.endTime > ns ∧ m2.id ≠ args.meetingId)) := by
  constructor
  · intro req mid store found ns ne hfind htime hns hne hgt
    obtain ⟨-, hst, het, -, -⟩ := applyNonTimeFields_frame req found
    simp only [restUpdateMeeting, hfind]
    rw [if_pos (by rcases htime with h | h <;> simp [h])]
    rw [hst, het, ← hns, ← hne]
    rw [if_neg (by omega)]
    refine ⟨_, rfl, by simp, by simp, ?_, ?_⟩
    · rintro ⟨m2, hmem, hsch, h1, h2, hid⟩
      have hconf : m2 ∈ checkTimeConflictScheduled ns ne (some mid) store :=
        mem_checkTimeConflictScheduled.mpr
          ⟨hmem, hsch, h1, h2, fun i hi => by cases hi; exact hid⟩
      have hlen : 0 < (checkTimeConflictScheduled ns ne (some mid) store).length :=
        List.length_pos.mpr (ne_nil_iff_exists_mem.mpr ⟨m2, hconf⟩)
      simp [hlen]
    · intro hnone
      have hnil : checkTimeConflictScheduled ns ne (some mid) store = [] := by
        by_contra hne2
        obtain ⟨m2, hm2⟩ := ne_nil_iff_exists_mem.mp hne2
        obtain ⟨hmem, hsch, h1, h2, hid⟩ := mem_checkTimeConflictScheduled.mp hm2
        exact hnone ⟨m2, hmem, hsch, h1, h2, hid mid rfl⟩
      simp [hnil]
  · intro args store found ns ne hfind htime hns hne hgt
    obtain ⟨-, hst, het, -, -⟩ :=
      applyDescriptionField_frame args.description (applyTitleField args.title found)
    obtain ⟨-, hst2, het2, -, -⟩ := applyTitleField_frame args.title found
    simp only [agentUpdateMeeting, hfind]
    rw [if_pos (by rcases htime with h | h <;> simp [h])]
    rw [hst, het, hst2, het2, ← hns, ← hne]
    rw [if_neg (by omega)]
    refine ⟨_, rfl, by simp, by simp, ?_⟩
    constructor
    · intro hc
      have hlen : 0 < (checkTimeConflict ns ne (some args.meetingId) store).length := by
        simpa using hc
      have hne2 : checkTimeConflict ns ne (some args.meetingId) store ≠ [] := by
        intro h0
        rw [h0] at hlen
        simp at hlen
      obtain ⟨m2, hm2⟩ := ne_nil_iff_exists_mem.mp hne2
      obtain ⟨hmem, h1, h2, hid⟩ := mem_checkTimeConflict.mp hm2
      exact ⟨m2, hmem, h1, h2, hid args.meetingId rfl⟩
    · rintro ⟨m2, hmem, h1, h2, hid⟩
      have hconf : m2 ∈ checkTimeConflict ns ne (some args.meetingId) store :=
        mem_checkTimeConflict.mpr ⟨hmem, h1, h2, fun i hi => by cases hi; exact hid⟩
      have hlen : 0 < (checkTimeConflict ns ne (some args.meetingId) store).length :=
        List.length_pos.mpr (ne_nil_iff_exists_mem.mpr ⟨m2, hconf⟩)
      simp [hlen]

/-- Witness for C5: moving `mtgA` to [12,18) next to the overlapping
`mtgWide` flags the conflict; moving it to [30,40) in a store where it is
alone clears both `hasConflict` and `conflictDetails`. -/
theorem update_recomputes_conflict_state_witness :
    (∃ updated : Meeting,
      (restUpdateMeeting ⟨none, none, some 12, some 18, none, none, none, none⟩ mtgA.id
          [mtgA, mtgWide]).result = (200, .ok updated) ∧
      updated.startTime = 12 ∧ updated.endTime = 18 ∧ updated.hasConflict = true) ∧
    (∃ updated : Meeting,
      (restUpdateMeeting ⟨none, none, some 30, some 40, none, none, none, none⟩ mtgA.id
          [mtgA]).result = (200, .ok updated) ∧
      updated.hasConflict = false ∧ updated.conflictDetails = none) := by
  constructor
  · obtain ⟨u, h1, h2, h3, h4, h5⟩ :=
      update_recomputes_conflict_state.1
        ⟨none, none, some 12, some 18, none, none, none, none⟩ mtgA.id [mtgA, mtgWide]
        mtgA 12 18 (by decide) (Or.inl (by decide)) (by decide) (by decide) (by decide)
    exact ⟨u, h1, h2, h3,
      (h4 ⟨mtgWide, by decide, by decide, by decide, by decide, by decide⟩).1⟩
  · obtain ⟨u, h1, h2, h3, h4, h5⟩ :=
      update_recomputes_conflict_state.1
        ⟨none, none, some 30, some 40, none, none, none, none⟩ mtgA.id [mtgA]
        mtgA 30 40 (by decide) (Or.inl (by decide)) (by decide) (by decide) (by decide)
    refine ⟨u, h1, ?_, ?_⟩
    · exact (h5 (by rintro ⟨m2, hm2, -, -, -, hid⟩; simp at hm2; subst hm2; exact hid rfl)).1
    · exact (h5 (by rintro ⟨m2, hm2, -, -, -, hid⟩; simp at hm2; subst hm2; exact hid rfl)).2

theorem applyTitleField_title_some (t : String) (m : Meeting) (h : t ≠ "") :
    (applyTitleField (some t) m).title = t := by
  simp [applyTitleField, h]

theorem applyTitleField_title_none (m : Meeting) :
    (applyTitleField none m).title = m.title := rfl

theorem applyDescriptionField_keeps (d : Option String) (m : Meeting) :
    (applyDescriptionField d m).title = m.title := by
  cases d <;> simp [applyDescriptionField]

theorem applyDescriptionField_description_some (d : String) (m : Meeting) :
    (applyDescriptionField (some d) m).description = some d := rfl

theorem applyOrganizerField_keeps (o : Option String) (m : Meeting) :
    (applyOrganizerField o m).title = m.title ∧
    (applyOrganizerField o m).description = m.description := by
  cases o with
  | none => simp [applyOrganizerField]
  | some s => by_cases h : s = "" <;> simp [applyOrganizerField, h]

theorem applyAttendeesField_keeps (a : Option (List String)) (m : Meeting) :
    (applyAttendeesField a m).title = m.title ∧
    (applyAttendeesField a m).description = m.description := by
  cases a <;> simp [applyAttendeesField]

theorem applyLocationField_keeps (l : Option String) (m : Meeting) :
    (applyLocationField l m).title = m.title ∧
    (applyLocationField l m).description = m.description := by
  cases l <;> simp [applyLocationField]

theorem applyStatusField_keeps (st : Option MeetingStatus) (m : Meeting) :
    (applyStatusField st m).title = m.title ∧
    (applyStatusField st m).description = m.description := by
  cases st <;> simp [applyStatusField]

/-- Through the whole non-time chain, a truthy supplied title lands in the
updated record, an absent title leaves the stored one, and a supplied
description lands in the updated record. -/
theorem applyNonTimeFields_title_description (req : RestUpdateReq) (m : Meeting) :
    (∀ t, req.title = some t → t ≠ "" → (applyNonTimeFields req m).title = t) ∧
    (req.title = none → (applyNonTimeFields req m).title = m.title) ∧
    (∀ d, req.description = some d →
      (applyNonTimeFields req m).description = some d) := by
  unfold applyNonTimeFields
  refine ⟨?_, ?_, ?_⟩
  · intro t ht hne
    rw [(applyStatusField_keeps _ _).1, (applyLocationField_keeps _ _).1,
      (applyAttendeesField_keeps _ _).1, (applyOrganizerField_keeps _ _).1,
      applyDescriptionField_keeps, ht, applyTitleField_title_some t m hne]
  · intro ht
    rw [(applyStatusField_keeps _ _).1, (applyLocationField_keeps _ _).1,
      (applyAttendeesField_keeps _ _).1, (applyOrganizerField_keeps _ _).1,
      applyDescriptionField_keeps, ht, applyTitleField_title_none]
  · intro d hd
    rw [(applyStatusField_keeps _ _).2, (applyLocationField_keeps _ _).2,
      (applyAttendeesField_keeps _ _).2, (applyOrganizerField_keeps _ _).2,
      hd, applyDescriptionField_description_some]

/-- C8: an update request supplying no time fields changes only the supplied
non-time attributes: the updated record keeps `startTime`, `endTime`,
`hasConflict` and `conflictDetails` exactly as stored, the conflict detector
is not invoked (zero conflict checks), while a supplied truthy title and a
supplied description do land in the record. Holds for the fuller REST update
handler and the session-enabled agent update handler alike. -/
theorem update_without_time_frame :
    (∀ (req : RestUpdateReq) (mid : Nat) (store : List Meeting) (found : Meeting),
      store.find? (fun m => m.id == mid) = some found →
      req.startTime = none → req.endTime = none →
      ∃ updated : Meeting,
        (restUpdateMeeting req mid store).result = (200, .ok updated) ∧
        updated.startTime = found.startTime ∧
        updated.endTime = found.endTime ∧
        updated.hasConflict = found.hasConflict ∧
        updated.conflictDetails = found.conflictDetails ∧
        (restUpdateMeeting req mid store).conflictChecks = 0 ∧
        (∀ t, req.title = some t → t ≠ "" → updated.title = t) ∧
        (req.title = none → updated.title = found.title) ∧
        (∀ d, req.description = some d → updated.description = some d)) ∧
    (∀ (args : AgentUpdateArgs) (store : List Meeting) (found : Meeting),
      store.find? (fun m => m.id == args.meetingId) = some found →
      args.startTime = none → args.endTime = none →
      ∃ updated : Meeting,
        (agentUpdateMeeting args store).result = .ok updated ∧
        updated.startTime = found.startTime ∧
        updated.endTime = found.endTime ∧
        updated.hasConflict = found.hasConflict ∧
        updated.conflictDetails = found.conflictDetails ∧
        (agentUpdateMeeting args store).conflictChecks = 0) := by
  constructor
  · intro req mid store found hfind hst het
    obtain ⟨-, h1, h2, h3, h4⟩ := applyNonTimeFields_frame req found
    obtain ⟨ht1, ht2, ht3⟩ := applyNonTimeFields_title_description req found
    simp only [restUpdateMeeting, hfind]
    rw [if_neg (by simp [hst, het])]
    exact ⟨applyNonTimeFields req found, rfl, h1, h2, h3, h4, rfl, ht1, ht2, ht3⟩
  · intro args store found hfind hst het
    obtain ⟨-, h1, h2, h3, h4⟩ :=
      applyDescriptionField_frame args.description (applyTitleField args.title found)
    obtain ⟨-, g1, g2, g3, g4⟩ := applyTitleField_frame args.title found
    simp only [agentUpdateMeeting, hfind]
    rw [if_neg (by simp [hst, het])]
    exact ⟨applyDescriptionField args.description (applyTitleField args.title found), rfl,
      h1.trans g1, h2.trans g2, h3.trans g3, h4.trans g4, rfl⟩

/-- Witness for C8: retitling `mtgWide` (which has `hasConflict = false` and
stored times [-10,20)) without time fields keeps its times and conflict state
and performs no conflict check. -/
theorem update_without_time_frame_witness :
    (∃ updated : Meeting,
      (restUpdateMeeting ⟨some "rename", some "new desc", none, none, none, none, none, none⟩
          mtgWide.id [mtgWide]).result = (200, .ok updated) ∧
      updated.startTime = mtgWide.startTime ∧
      updated.endTime = mtgWide.endTime ∧
      updated.hasConflict = mtgWide.hasConflict ∧
      updated.conflictDetails = mtgWide.conflictDetails ∧
      updated.title = "rename") ∧
    (∃ updated : Meeting,
      (agentUpdateMeeting ⟨mtgWide.id, some "rename", none, none, none⟩ [mtgWide]).result =
        .ok updated ∧
      updated.hasConflict = mtgWide.hasConflict) := by
  constructor
  · obtain ⟨u, h1, h2, h3, h4, h5, h6, h7, h8, h9⟩ :=
      update_without_time_frame.1
        ⟨some "rename", some "new desc", none, none, none, none, none, none⟩
        mtgWide.id [mtgWide] mtgWide (by decide) rfl rfl
    exact ⟨u, h1, h2, h3, h4, h5, h7 "rename" rfl (by decide)⟩
  · obtain ⟨u, h1, h2, h3, h4, h5, h6⟩ :=
      update_without_time_frame.2 ⟨mtgWide.id, some "rename", none, none, none⟩
        [mtgWide] mtgWide (by decide) rfl rfl
    exact ⟨u, h1, h4⟩

/-- C10 (amended): the plain REST create endpoint has no confirmation gate. For every
valid request (required fields present, `end > start`) whose interval
conflicts with stored meetings, both REST create variants still persist
exactly one new meeting — the store grows by exactly that record, one
write — with `hasConflict = true`, and answer status 201 with a `created`
result carrying the conflicting meetings; no result constructor of the REST
create endpoint expresses a pending-confirmation state. -/
theorem rest_create_no_confirmation_gate :
    (∀ (req : RestCreateReq) (store : List Meeting) (newId : Nat) (s e : Int),
      req.title ≠ "" → req.organizer ≠ "" →
      req.startTime = some s → req.endTime = some e → e > s →
      checkTimeConflictScheduled s e none store ≠ [] →
      ∃ m : Meeting,
        (restCreateMeeting req store newId).result =
          (201, .created m ((checkTimeConflictScheduled s e none store).map conflictInfoOf)) ∧
        m.hasConflict = true ∧
        (restCreateMeeting req store newId).store = store ++ [m] ∧
        (restCreateMeeting req store newId).writes = 1) ∧
    (∀ (req : RestCreateReqMin) (store : List Meeting) (newId : Nat) (s e : Int),
      req.title ≠ "" →
      req.startTime = some s → req.endTime = some e → e > s →
      checkTimeConflict s e none store ≠ [] →
      ∃ m : Meeting,
        (restCreateMeetingMin req store newId).result =
          (201, .created m ((checkTimeConflict s e none store).map conflictInfoOf)) ∧
        m.hasConflict = true ∧
        (restCreateMeetingMin req store newId).store = store ++ [m] ∧
        (restCreateMeetingMin req store newId).writes = 1) := by
  constructor
  · intro req store newId s e htitle horg hs he hgt hconf
    have hlen : 0 < (checkTimeConflictScheduled s e none store).length :=
      List.length_pos.mpr hconf
    simp only [restCreateMeeting]
    rw [if_neg (by simp [htitle, horg, hs, he])]
    rw [hs, he]
    simp only [Option.getD_some]
    rw [if_neg (by omega)]
    refine ⟨_, ?_, ?_, rfl, rfl⟩
    · dsimp only
      split
      · rfl
      · rename_i hfalse
        exact absurd (by simp [hlen]) hfalse
    · simp [hlen]
  · intro req store newId s e htitle hs he hgt hconf
    have hlen : 0 < (checkTimeConflict s e none store).length :=
      List.length_pos.mpr hconf
    simp only [restCreateMeetingMin]
    rw [if_neg (by simp [htitle, hs, he])]
    rw [hs, he]
    simp only [Option.getD_some]
    rw [if_neg (by omega)]
    refine ⟨_, ?_, ?_, rfl, rfl⟩
    · dsimp only
      split
      · rfl
      · rename_i hfalse
        exact absurd (by simp [hlen]) hfalse
    · simp [hlen]

/-- Witness for C10: creating a meeting on [5,15) while `mtgA` occupies
[0,10) persists it anyway with `hasConflict = true` and 201. -/
theorem rest_create_no_confirmation_gate_witness :
    (∃ m : Meeting,
      (restCreateMeeting ⟨"overlapping", none, some 5, some 15, "o@x.com", none, none⟩
          [mtgA] 2).result =
        (201, .created m ((checkTimeConflictScheduled 5 15 none [mtgA]).map conflictInfoOf)) ∧
      m.hasConflict = true ∧
      (restCreateMeeting ⟨"overlapping", none, some 5, some 15, "o@x.com", none, none⟩
          [mtgA] 2).store = [mtgA] ++ [m]) ∧
    (∃ m : Meeting,
      (restCreateMeetingMin ⟨"overlapping", none, some 5, some 15⟩ [mtgA] 2).result =
        (201, .created m ((checkTimeConflict 5 15 none [mtgA]).map conflictInfoOf)) ∧
      m.hasConflict = true ∧
      (restCreateMeetingMin ⟨"overlapping", none, some 5, some 15⟩ [mtgA] 2).store =
        [mtgA] ++ [m]) := by
  constructor
  · obtain ⟨m, h1, h2, h3, h4⟩ :=
      rest_create_no_confirmation_gate.1
        ⟨"overlapping", none, some 5, some 15, "o@x.com", none, none⟩ [mtgA] 2 5 15
        (by decide) (by decide) rfl rfl (by decide) (by decide)
    exact ⟨m, h1, h2, h3⟩
  · obtain ⟨m, h1, h2, h3, h4⟩ :=
      rest_create_no_confirmation_gate.2 ⟨"overlapping", none, some 5, some 15⟩ [mtgA] 2 5 15
        (by decide) rfl rfl (by decide) (by decide)
    exact ⟨m, h1, h2, h3⟩

/-- C5 counterexample to the claim as stated: on the fuller update path the
conflict re-check is status-filtered, so moving `mtgA` to [2,8) — an interval
that overlaps the *cancelled* meeting `mtgCancelled` on [0,10), a distinct
existing meeting — still yields `hasConflict = false` and a cleared
`conflictDetails`, not `hasConflict = true` with recomputed details. -/
theorem update_overlap_cancelled_counterexample :
    mtgCancelled ∈ [mtgA, mtgCancelled] ∧
    mtgCancelled.id ≠ mtgA.id ∧
    mtgCancelled.startTime < 8 ∧ mtgCancelled.endTime > 2 ∧
    (restUpdateMeeting ⟨none, none, some 2, some 8, none, none, none, none⟩ mtgA.id
        [mtgA, mtgCancelled]).result =
      (200, .ok { mtgA with
        startTime := 2, endTime := 8, hasConflict := false, conflictDetails := none }) := by
  decide

/-- C10 counterexample to the claim as stated: the fuller REST create
endpoint's conflict check is status-filtered, so a valid request on [5,15)
whose interval overlaps the existing (cancelled) meeting `mtgCancelled` on
[0,10) is persisted with `hasConflict = false` and an empty conflicts list,
not `hasConflict = true` with the list of conflicting meetings. -/
theorem rest_create_overlap_cancelled_counterexample :
    mtgCancelled.startTime < 15 ∧ mtgCancelled.endTime > 5 ∧
    (restCreateMeeting ⟨"overlapping", none, some 5, some 15, "o@x.com", none, none⟩
        [mtgCancelled] 9).result =
      (201, .created
        { id := 9, title := "overlapping", description := none, startTime := 5,
          endTime := 15, organizer := some "o@x.com", attendees := [], location := none,
          status := .scheduled, hasConflict := false, conflictDetails := none }
        []) ∧
    (restCreateMeeting ⟨"overlapping", none, some 5, some 15, "o@x.com", none, none⟩
        [mtgCancelled] 9).store.length = 2 := by
  decide
